import Mathlib

/-!
Verification of the MEGA client core in `src/mega_api.py`.

Bytes are modelled as `List Nat` (each element a byte value `< 256`, the
invariant Python's `bytes` type enforces); 32-bit words as `Nat`.  The AES-128
single-block ECB encryption provided by the `cryptography` package is modelled
as an abstract block cipher parameter `E : Bytes → Bytes → Bytes` (key bytes,
plaintext block ↦ ciphertext block): every structural claim below is proved for
an arbitrary cipher, hence in particular for AES.  The `cryptography` ECB
encryptor is stateless across `update` calls, so re-applying `E` models the
reuse of one encryptor object in the source.
-/

abbrev Bytes := List Nat

abbrev BlockCipher := Bytes → Bytes → Bytes

/-- Big-endian interpretation of a byte string, as in Python's
`int.from_bytes(s, 'big')`. -/
def fromBytesBE (b : Bytes) : Nat :=
  b.foldl (fun acc x => acc * 256 + x) 0

/-- The 4-byte big-endian encoding of a 32-bit word, as in Python's
`x.to_bytes(4, 'big')` (which raises for `x ≥ 2^32`; the `% 256` on the top
byte coincides with it on the whole domain of use). -/
def toBytesBE4 (w : Nat) : Bytes :=
  [w / 16777216 % 256, w / 65536 % 256, w / 256 % 256, w % 256]

/-- The slicing loop `[int.from_bytes(s[i:i+4],'big') for i in range(0,len(s),4)]`
of `str_to_a32`. -/
def words4 : Bytes → List Nat
  | [] => []
  | b0 :: b1 :: b2 :: b3 :: rest => fromBytesBE [b0, b1, b2, b3] :: words4 rest
  | rest => [fromBytesBE rest]

/-- `str_to_a32` from `mega_api.py`: zero-pad to a multiple of 4 bytes
(`s += b'\0' * (-len(s) % 4)`, and Python's `-n % 4 = (4 - n % 4) % 4`),
then group into big-endian 32-bit words. -/
def str_to_a32 (s : Bytes) : List Nat :=
  words4 (s ++ List.replicate ((4 - s.length % 4) % 4) 0)

/-- `a32_to_str` from `mega_api.py`: `b''.join(x.to_bytes(4,'big') for x in a)`. -/
def a32_to_str (a : List Nat) : Bytes :=
  List.flatten (a.map toBytesBE4)

/-- The URL-safe Base64 alphabet used by Python's `base64.urlsafe_b64encode`. -/
def b64UrlAlphabet : List Char :=
  "ABCDEFGHIJKLMNOPQRSTUVWXYZabcdefghijklmnopqrstuvwxyz0123456789-_".toList

/-- Alphabet lookup for a 6-bit group (all call sites pass an index `< 64`). -/
def b64Char (n : Nat) : Char :=
  b64UrlAlphabet.getD n 'A'

/-- Standard Base64 encoding of a byte string over the URL-safe alphabet,
including the trailing `=` padding produced by `base64.urlsafe_b64encode`. -/
def b64EncodeChunks : Bytes → List Char
  | [] => []
  | [b0] => [b64Char (b0 / 4), b64Char (b0 % 4 * 16), '=', '=']
  | [b0, b1] => [b64Char (b0 / 4), b64Char (b0 % 4 * 16 + b1 / 16),
      b64Char (b1 % 16 * 4), '=']
  | b0 :: b1 :: b2 :: rest =>
      b64Char (b0 / 4) :: b64Char (b0 % 4 * 16 + b1 / 16) ::
        b64Char (b1 % 16 * 4 + b2 / 64) :: b64Char (b2 % 64) ::
        b64EncodeChunks rest

/-- Python's `str.rstrip('=')`: drop every trailing `=`. -/
def rstripEq (l : List Char) : List Char :=
  (l.reverse.dropWhile (fun c => c == '=')).reverse

/-- `base64url_encode` from `mega_api.py`:
`base64.urlsafe_b64encode(data).decode().rstrip('=')`. -/
def base64url_encode (b : Bytes) : String :=
  String.mk (rstripEq (b64EncodeChunks b))

/-- The conditional zero-padding `if len(block) < 16: block += b'\0' * (16 - len(block))`
applied to each 16-byte slice in `prepare_key` and `stringhash`. -/
def padBlock (b : Bytes) : Bytes :=
  if b.length < 16 then b ++ List.replicate (16 - b.length) 0 else b

/-- The fixed initial key of `prepare_key`. -/
def megaKDFInit : List Nat := [0x93C467E3, 0x7DB0C7A4, 0xD1BE3F81, 0x0152CB56]

/-- The inner loop of `prepare_key`: `for i in range(0, len(password_bytes), 16)`,
slicing a 16-byte block, zero-padding a short final slice, encrypting it under
the current running key and replacing the key by the ciphertext words. -/
def prepareKeyBlocks (E : BlockCipher) (pw : Bytes) (key : List Nat) : List Nat :=
  match pw with
  | [] => key
  | a :: rest =>
      prepareKeyBlocks E ((a :: rest).drop 16)
        (str_to_a32 (E (a32_to_str key) (padBlock ((a :: rest).take 16))))
termination_by pw.length
decreasing_by simp [List.length_drop]; omega

/-- `prepare_key` from `mega_api.py`: 65536 (`0x10000`) rounds of the per-block
encryption loop starting from the fixed constant. -/
def prepare_key (E : BlockCipher) (password : Bytes) : List Nat :=
  (fun key => prepareKeyBlocks E password key)^[0x10000] megaKDFInit

/-- The `for j in range(4): h[j] ^= int.from_bytes(block[j*4:j*4+4], 'big')`
fold of `stringhash`. -/
def xorBlock (h : List Nat) (block : Bytes) : List Nat :=
  (List.range 4).map
    (fun j => Nat.xor (h.getD j 0) (fromBytesBE ((block.drop (4 * j)).take 4)))

/-- The block loop of `stringhash`: slice 16-byte blocks of the e-mail bytes,
zero-pad a short final slice, XOR each into the accumulator. -/
def stringhashXorLoop (eb : Bytes) (h : List Nat) : List Nat :=
  match eb with
  | [] => h
  | a :: rest =>
      stringhashXorLoop ((a :: rest).drop 16) (xorBlock h (padBlock ((a :: rest).take 16)))
termination_by eb.length
decreasing_by simp [List.length_drop]; omega

/-- One application of `aes.update(a32_to_str(h))` followed by `str_to_a32`,
with the encryptor keyed by `a32_to_str(key)`. -/
def encryptWords (E : BlockCipher) (key h : List Nat) : List Nat :=
  str_to_a32 (E (a32_to_str key) (a32_to_str h))

/-- ASCII lower-casing of one byte, modelling Python's `str.lower()` composed
with `encode()` on the ASCII e-mail strings the client handles. -/
def lowerByte (c : Nat) : Nat :=
  if 65 ≤ c ∧ c ≤ 90 then c + 32 else c

/-- The tail of `stringhash` after the XOR loop: encrypt the accumulator
16384 (`0x4000`) times, keep words 0 and 2, Base64Url-encode. -/
def stringhashFinish (E : BlockCipher) (key h : List Nat) : String :=
  base64url_encode (a32_to_str
    [((encryptWords E key)^[0x4000] h).getD 0 0,
     ((encryptWords E key)^[0x4000] h).getD 2 0])

/-- `stringhash` from `mega_api.py`. -/
def stringhash (E : BlockCipher) (email : Bytes) (key : List Nat) : String :=
  stringhashFinish E key (stringhashXorLoop (email.map lowerByte) [0, 0, 0, 0])

/-- Blocks of 16 bytes with the final block zero-padded, following the claim
wording "splits them into 16-byte blocks zero-padding the final block". -/
def specBlocks (b : Bytes) : List Bytes :=
  match b with
  | [] => []
  | a :: rest =>
      ((a :: rest).take 16 ++ List.replicate (16 - ((a :: rest).take 16).length) 0)
        :: specBlocks ((a :: rest).drop 16)
termination_by b.length
decreasing_by simp [List.length_drop]; omega

/-- One key-replacement step of the claim's KDF round. -/
def kdfStep (E : BlockCipher) (key : List Nat) (block : Bytes) : List Nat :=
  str_to_a32 (E (a32_to_str key) block)

/-- The key-derivation algorithm exactly as claim C1 words it: 65536 rounds,
each round folding the 16-byte zero-padded password blocks in order into the
running key, starting from the fixed constant. -/
def prepareKeySpec (E : BlockCipher) (pw : Bytes) : List Nat :=
  (fun key => (specBlocks pw).foldl (kdfStep E) key)^[0x10000] megaKDFInit

/-- The XOR fold exactly as claim C2 words it: XOR the block's four big-endian
words into the accumulator. -/
def xorWords (acc : List Nat) (block : Bytes) : List Nat :=
  List.zipWith Nat.xor acc (str_to_a32 block)

/-- The login hash exactly as claim C2 words it: XOR-fold the zero-padded
16-byte blocks of the lower-cased e-mail into a zero accumulator, encrypt it
16384 times under the MasterKey, return Base64Url of words 0 and 2. -/
def stringhashSpec (E : BlockCipher) (email : Bytes) (key : List Nat) : String :=
  stringhashFinish E key ((specBlocks (email.map lowerByte)).foldl xorWords [0, 0, 0, 0])

/-- JSON values, the shape of `json.dumps` inputs and `res.json()` outputs. -/
inductive JValue where
  | null
  | bool (b : Bool)
  | num (n : Int)
  | str (s : String)
  | arr (elems : List JValue)
  | obj (fields : List (String × JValue))

/-- The Python exception kinds the request path can raise. -/
inductive PyErr where
  | httpError (status : Nat) (body : String)
  | jsonDecodeError
  | requestException
  | typeError
  | keyError
  | indexError

/-- The network outcome of one `requests.post` call, supplied as an oracle:
either a raised `requests.exceptions.RequestException` (connection failure or
timeout), or a response with an HTTP status and a body that is or is not
valid JSON. -/
inductive NetResult where
  | exn
  | resp (status : Nat) (body : Option JValue) (rawText : String)

/-- The default endpoint of `mega_api_request`. -/
def MEGA_BASE_URL : String := "https://g.api.mega.co.nz/cs"

/-- Python's `random.randint(a, b)`: an inclusive-range sample, modelled over
an arbitrary entropy value `r`. -/
def randint (a b r : Nat) : Nat :=
  a + r % (b + 1 - a)

/-- `if not isinstance(data, list): data = [data]` in `mega_api_request`. -/
def listifyData (data : JValue) : List JValue :=
  match data with
  | .arr xs => xs
  | d => [d]

/-- The HTTP request `mega_api_request` issues: target URL, the `id` query
parameter, and the JSON-array payload. -/
structure HttpRequest where
  url : String
  idParam : Nat
  payload : List JValue

/-- Request construction in `mega_api_request`: POST to `base_url` with
`params = {"id": random.randint(0, 0xFFFFFFFF)}` and `json.dumps(data)` of the
listified data as body. -/
def megaApiRequestBuild (data : JValue) (base_url : String) (r : Nat) : HttpRequest :=
  ⟨base_url, randint 0 0xFFFFFFFF r, listifyData data⟩

/-- Python truthiness of a JSON value, as tested by `if json_data`. -/
def pyTruthy : JValue → Bool
  | .null => false
  | .bool b => b
  | .num n => n != 0
  | .str s => s != ""
  | .arr xs => !xs.isEmpty
  | .obj fs => !fs.isEmpty

/-- Python's `json_data[0]`: first element of a list, first character of a
string, `KeyError` on a dict (JSON object keys are strings, never `0`),
`TypeError` on the unsubscriptable types. -/
def pySubscript0 : JValue → Except PyErr JValue
  | .arr (x :: _) => .ok x
  | .arr [] => .error .indexError
  | .str s =>
      match s.toList with
      | [] => .error .indexError
      | c :: _ => .ok (.str (String.mk [c]))
  | .obj _ => .error .keyError
  | .null => .error .typeError
  | .bool _ => .error .typeError
  | .num _ => .error .typeError

/-- `return json_data[0] if json_data else None` in `mega_api_request`. -/
def requestExtract (j : JValue) : Except PyErr (Option JValue) :=
  if pyTruthy j then (pySubscript0 j).map some else .ok none

/-- Response handling of `mega_api_request`: re-raise a network exception,
raise on `status_code != 200`, raise on a non-JSON body, otherwise return
`json_data[0] if json_data else None`. -/
def megaApiRequestHandle : NetResult → Except PyErr (Option JValue)
  | .exn => .error .requestException
  | .resp status body raw =>
      if status ≠ 200 then .error (.httpError status raw)
      else
        match body with
        | none => .error .jsonDecodeError
        | some j => requestExtract j

/-- The command `{"a": "us", "user": email, "uh": uh}` sent by `mega_login`. -/
def loginCmd (email uh : String) : JValue :=
  .obj [("a", .str "us"), ("user", .str email), ("uh", .str uh)]

/-- The command `{"a": "f", "c": 1}` sent by `list_files`. -/
def listFilesCmd : JValue :=
  .obj [("a", .str "f"), ("c", .num 1)]

/-- The command `{"a": "d", "n": node_id}` sent by `delete_file`. -/
def deleteCmd (node : String) : JValue :=
  .obj [("a", .str "d"), ("n", .str node)]

/-- The command `{"a": "u", "s": size, "t": folder_node or "n"}` sent by
`upload_file`. -/
def uploadCmd (size : Int) (t : String) : JValue :=
  .obj [("a", .str "u"), ("s", .num size), ("t", .str t)]

/-- The request `mega_login` builds: `mega_api_request(data)` leaves
`base_url` at its default, the fixed MEGA endpoint. -/
def loginRequestBuild (email uh : String) (r : Nat) : HttpRequest :=
  megaApiRequestBuild (loginCmd email uh) MEGA_BASE_URL r

/-- `if not self.sid`: `None` and the empty string are falsy. -/
def pySidFalsy : Option String → Bool
  | none => true
  | some s => s == ""

/-- The Python values the session-scoped methods return. -/
inductive PyRet where
  | pyNone
  | pyBool (b : Bool)
  | pyJson (j : JValue)

/-- One observable step of a session-scoped method: the HTTP request it issued
(`none` when it returned before any network call) and its return value or
raised exception. -/
structure OpStep where
  request : Option HttpRequest
  ret : Except PyErr PyRet

/-- First value bound to a key in a JSON object: `result["f"]` / `"f" in result`. -/
def jlookup (fs : List (String × JValue)) (k : String) : Option JValue :=
  (fs.find? (fun p => p.1 == k)).map (fun p => p.2)

/-- `list_files` from `mega_api.py`.  Note the source passes `self.sid` as the
second positional argument of `mega_api_request`, which is `base_url`: the
request URL is the session id, not the fixed endpoint. -/
def listFilesRun (sid : Option String) (r : Nat) (net : NetResult) : OpStep :=
  if pySidFalsy sid then ⟨none, .ok .pyNone⟩
  else
    let req := megaApiRequestBuild listFilesCmd (sid.getD "") r
    match megaApiRequestHandle net with
    | .error e => ⟨some req, .error e⟩
    | .ok res =>
        match res with
        | some (.obj fs) =>
            match jlookup fs "f" with
            | some files => ⟨some req, .ok (.pyJson files)⟩
            | none => ⟨some req, .ok .pyNone⟩
        | _ => ⟨some req, .ok .pyNone⟩

/-- `result == 0` in `delete_file`, under Python equality (`False == 0` and
`0.0 == 0` are `True`; the response is an `Option` because `mega_api_request`
can return `None`). -/
def pyEqZero : Option JValue → Bool
  | some (.num 0) => true
  | some (.bool false) => true
  | _ => false

/-- `delete_file` from `mega_api.py`: guard on `self.sid`, send
`{"a": "d", "n": node_id}` (again with `self.sid` in the `base_url` position),
return `True` when `result == 0` and `False` otherwise. -/
def deleteFileRun (sid : Option String) (node : String) (r : Nat) (net : NetResult) : OpStep :=
  if pySidFalsy sid then ⟨none, .ok .pyNone⟩
  else
    let req := megaApiRequestBuild (deleteCmd node) (sid.getD "") r
    match megaApiRequestHandle net with
    | .error e => ⟨some req, .error e⟩
    | .ok res =>
        if pyEqZero res then ⟨some req, .ok (.pyBool true)⟩
        else ⟨some req, .ok (.pyBool false)⟩

/-- The upload-initiation portion of `upload_file` from `mega_api.py`: guard on
`self.sid`, then on `os.path.exists`, send `{"a": "u", ...}` and require a
string result (the upload URL); the subsequent raw POST of the file bytes to
that URL is outside this step. -/
def initiateUploadRun (sid : Option String) (fileExists : Bool) (size : Int)
    (folderNode : Option String) (r : Nat) (net : NetResult) : OpStep :=
  if pySidFalsy sid then ⟨none, .ok .pyNone⟩
  else if !fileExists then ⟨none, .ok .pyNone⟩
  else
    let target :=
      match folderNode with
      | some t => if t == "" then "n" else t
      | none => "n"
    let req := megaApiRequestBuild (uploadCmd size target) (sid.getD "") r
    match megaApiRequestHandle net with
    | .error e => ⟨some req, .error e⟩
    | .ok res =>
        match res with
        | some (.str s) => ⟨some req, .ok (.pyJson (.str s))⟩
        | _ => ⟨some req, .ok .pyNone⟩

/-- The fields of a `Mega` instance that carry session state, together with the
constructor arguments. -/
structure MegaState where
  email : String
  password : String
  session : Option JValue
  sid : Option String

/-- `list_files` as a state transformer on the `Mega` instance: the method body
contains no assignment to `self.session` or `self.sid`, so the state is
returned unchanged. -/
def listFilesM (st : MegaState) (r : Nat) (net : NetResult) : MegaState × OpStep :=
  (st, listFilesRun st.sid r net)

/-- `delete_file` as a state transformer: no assignment to the session fields. -/
def deleteFileM (st : MegaState) (node : String) (r : Nat) (net : NetResult) :
    MegaState × OpStep :=
  (st, deleteFileRun st.sid node r net)

/-- `upload_file` initiation as a state transformer: no assignment to the
session fields. -/
def initiateUploadM (st : MegaState) (fileExists : Bool) (size : Int)
    (folderNode : Option String) (r : Nat) (net : NetResult) : MegaState × OpStep :=
  (st, initiateUploadRun st.sid fileExists size folderNode r net)

/-- `mega_api_request` as a state transformer: it reads no session field and
assigns none; it builds the request and classifies the response. -/
def megaApiRequestM (st : MegaState) (data : JValue) (base_url : String) (r : Nat)
    (net : NetResult) : MegaState × (HttpRequest × Except PyErr (Option JValue)) :=
  (st, (megaApiRequestBuild data base_url r, megaApiRequestHandle net))

theorem padBlock_eq_pad (b : Bytes) (h : b.length ≤ 16) :
    padBlock b = b ++ List.replicate (16 - b.length) 0 := by
  unfold padBlock
  rcases Nat.lt_or_ge b.length 16 with h1 | h1
  · simp [h1]
  · have h2 : b.length = 16 := Nat.le_antisymm h h1
    simp [h2]

theorem padBlock_length (b : Bytes) (h : b.length ≤ 16) :
    (padBlock b).length = 16 := by
  rw [padBlock_eq_pad b h]
  simp
  omega

theorem toBytesBE4_fromBytesBE (b0 b1 b2 b3 : Nat) (h0 : b0 < 256) (h1 : b1 < 256)
    (h2 : b2 < 256) (h3 : b3 < 256) :
    toBytesBE4 (fromBytesBE [b0, b1, b2, b3]) = [b0, b1, b2, b3] := by
  simp only [toBytesBE4, fromBytesBE, List.foldl, List.cons.injEq, and_true]
  omega

theorem a32_words4_roundtrip (s : Bytes) (h256 : ∀ x ∈ s, x < 256)
    (h4 : s.length % 4 = 0) : a32_to_str (words4 s) = s := by
  match s with
  | [] => rfl
  | [b0] => simp at h4
  | [b0, b1] => simp at h4
  | [b0, b1, b2] => simp at h4
  | b0 :: b1 :: b2 :: b3 :: rest =>
      have hr : rest.length % 4 = 0 := by
        simp [List.length_cons] at h4
        omega
      have hr256 : ∀ x ∈ rest, x < 256 := by
        intro x hx
        exact h256 x (by simp [hx])
      have ih := a32_words4_roundtrip rest hr256 hr
      have hb : toBytesBE4 (fromBytesBE [b0, b1, b2, b3]) = [b0, b1, b2, b3] :=
        toBytesBE4_fromBytesBE b0 b1 b2 b3 (h256 b0 (by simp)) (h256 b1 (by simp))
          (h256 b2 (by simp)) (h256 b3 (by simp))
      show a32_to_str (fromBytesBE [b0, b1, b2, b3] :: words4 rest) = _
      unfold a32_to_str at ih ⊢
      simp only [List.map_cons, List.flatten_cons, ih, hb]
      rfl

/-- C8: for every byte sequence `b`, `a32_to_str (str_to_a32 b)` equals `b`
zero-padded on the right to the next multiple of 4 bytes; for inputs whose
length is already a multiple of 4 it equals `b` exactly, and the empty input
yields the empty word sequence. -/
theorem a32_str_roundtrip (b : Bytes) (hb : ∀ x ∈ b, x < 256) :
    a32_to_str (str_to_a32 b) = b ++ List.replicate ((4 - b.length % 4) % 4) 0
    ∧ (b.length % 4 = 0 → a32_to_str (str_to_a32 b) = b)
    ∧ str_to_a32 [] = [] := by
  have hpad : ∀ x ∈ b ++ List.replicate ((4 - b.length % 4) % 4) 0, x < 256 := by
    intro x hx
    rcases List.mem_append.mp hx with h | h
    · exact hb x h
    · have := List.eq_of_mem_replicate h
      omega
  have hlen : (b ++ List.replicate ((4 - b.length % 4) % 4) 0).length % 4 = 0 := by
    simp only [List.length_append, List.length_replicate]
    omega
  have hmain : a32_to_str (str_to_a32 b)
      = b ++ List.replicate ((4 - b.length % 4) % 4) 0 :=
    a32_words4_roundtrip _ hpad hlen
  refine ⟨hmain, ?_, rfl⟩
  intro h0
  rw [hmain, h0]
  simp

/-- Witness for C8 at the concrete input `[1, 2, 3]` (padded by one zero byte). -/
theorem a32_str_roundtrip_witness :
    (∀ x ∈ ([1, 2, 3] : Bytes), x < 256)
    ∧ a32_to_str (str_to_a32 [1, 2, 3]) = [1, 2, 3] ++ List.replicate 1 0 :=
  ⟨by decide, (a32_str_roundtrip [1, 2, 3] (by decide)).1⟩

/-- C10: for the empty password the per-block loop body runs zero times in
every round, so `prepare_key` returns exactly the fixed public constant
`[0x93C467E3, 0x7DB0C7A4, 0xD1BE3F81, 0x0152CB56]`. -/
theorem prepare_key_empty (E : BlockCipher) :
    prepare_key E [] = [0x93C467E3, 0x7DB0C7A4, 0xD1BE3F81, 0x0152CB56] := by
  unfold prepare_key
  have hfix : (fun key => prepareKeyBlocks E [] key) megaKDFInit = megaKDFInit := by
    simp [prepareKeyBlocks]
  rw [Function.iterate_fixed hfix]
  rfl

theorem prepareKeyBlocks_eq_foldl (E : BlockCipher) (pw : Bytes) (key : List Nat) :
    prepareKeyBlocks E pw key = (specBlocks pw).foldl (kdfStep E) key := by
  match pw with
  | [] => rw [prepareKeyBlocks, specBlocks]; rfl
  | a :: rest =>
      rw [prepareKeyBlocks, specBlocks]
      simp only [List.foldl_cons]
      rw [padBlock_eq_pad _ (by simp)]
      exact prepareKeyBlocks_eq_foldl E ((a :: rest).drop 16) _
termination_by pw.length
decreasing_by simp [List.length_drop]; omega

/-- C1: for every password byte string, `prepare_key` equals the claim's
algorithm: split the UTF-8 bytes into 16-byte blocks zero-padding the final
block, start from the running key `[0x93C467E3, 0x7DB0C7A4, 0xD1BE3F81,
0x0152CB56]`, and for 65536 rounds encrypt each block in order under the
current running key with the block cipher (AES-ECB), replacing the running key
with the ciphertext read as 4 big-endian 32-bit words; the final running key
is the returned MasterKey. -/
theorem prepare_key_matches_spec (E : BlockCipher) (pw : Bytes) :
    prepare_key E pw = prepareKeySpec E pw := by
  unfold prepare_key prepareKeySpec
  have hfun : (fun key => prepareKeyBlocks E pw key)
      = (fun key => (specBlocks pw).foldl (kdfStep E) key) :=
    funext (fun key => prepareKeyBlocks_eq_foldl E pw key)
  rw [hfun]

theorem length4_eq (l : List Nat) (h : l.length = 4) :
    ∃ a b c d, l = [a, b, c, d] := by
  match l, h with
  | [a, b, c, d], _ => exact ⟨a, b, c, d, rfl⟩

theorem length16_eq (l : List Nat) (h : l.length = 16) :
    ∃ b0 b1 b2 b3 b4 b5 b6 b7 b8 b9 b10 b11 b12 b13 b14 b15,
      l = [b0, b1, b2, b3, b4, b5, b6, b7, b8, b9, b10, b11, b12, b13, b14, b15] := by
  match l, h with
  | [b0, b1, b2, b3, b4, b5, b6, b7, b8, b9, b10, b11, b12, b13, b14, b15], _ =>
      exact ⟨b0, b1, b2, b3, b4, b5, b6, b7, b8, b9, b10, b11, b12, b13, b14, b15, rfl⟩

theorem xorBlock_eq_xorWords (h blk : List Nat) (hh : h.length = 4)
    (hb : blk.length = 16) : xorBlock h blk = xorWords h blk := by
  obtain ⟨a, b, c, d, rfl⟩ := length4_eq h hh
  obtain ⟨b0, b1, b2, b3, b4, b5, b6, b7, b8, b9, b10, b11, b12, b13, b14, b15, rfl⟩ :=
    length16_eq blk hb
  rfl

theorem xorBlock_length (h : List Nat) (blk : Bytes) : (xorBlock h blk).length = 4 := by
  simp [xorBlock]

theorem stringhashXorLoop_eq_foldl (eb : Bytes) (h : List Nat) (hh : h.length = 4) :
    stringhashXorLoop eb h = (specBlocks eb).foldl xorWords h := by
  match eb with
  | [] => rw [stringhashXorLoop, specBlocks]; rfl
  | a :: rest =>
      rw [stringhashXorLoop, specBlocks]
      simp only [List.foldl_cons]
      have htk : ((a :: rest).take 16).length ≤ 16 := by simp
      have hblk : (padBlock ((a :: rest).take 16)).length = 16 := padBlock_length _ htk
      rw [xorBlock_eq_xorWords h _ hh hblk, padBlock_eq_pad _ htk]
      exact stringhashXorLoop_eq_foldl ((a :: rest).drop 16) _ (by
        rw [← padBlock_eq_pad _ htk, ← xorBlock_eq_xorWords h _ hh hblk]
        exact xorBlock_length h _)
termination_by eb.length
decreasing_by simp [List.length_drop]; omega

/-- C2: for every e-mail byte string and every MasterKey, `stringhash` equals
the claim's algorithm: lower-case the e-mail, split its bytes into 16-byte
blocks zero-padding the final block, XOR-fold each block's four 4-byte
big-endian words into a 4-word accumulator initialised to zero, encrypt the
accumulator 16384 times under the MasterKey with the block cipher (AES-ECB),
and return the Base64Url encoding of words 0 and 2 of the final accumulator
(an 8-byte value). -/
theorem stringhash_matches_spec (E : BlockCipher) (email : Bytes) (key : List Nat) :
    stringhash E email key = stringhashSpec E email key := by
  unfold stringhash stringhashSpec
  rw [stringhashXorLoop_eq_foldl (email.map lowerByte) [0, 0, 0, 0] rfl]

theorem b64Char_mem (n : Nat) : b64Char n ∈ b64UrlAlphabet := by
  unfold b64Char
  rcases Nat.lt_or_ge n b64UrlAlphabet.length with h | h
  · rw [List.getD_eq_getElem _ _ h]
    exact List.getElem_mem h
  · rw [List.getD_eq_default _ _ h]
    decide

theorem b64UrlAlphabet_no_eq : ∀ c ∈ b64UrlAlphabet, c ≠ '=' := by decide

theorem b64Char_ne_eq (n : Nat) : b64Char n ≠ '=' :=
  b64UrlAlphabet_no_eq _ (b64Char_mem n)

theorem b64_chunks_split (b : Bytes) :
    ∃ code k, b64EncodeChunks b = code ++ List.replicate k '='
      ∧ ∀ c ∈ code, c ∈ b64UrlAlphabet := by
  match b with
  | [] => exact ⟨[], 0, by simp [b64EncodeChunks], by simp⟩
  | [b0] =>
      refine ⟨[b64Char (b0 / 4), b64Char (b0 % 4 * 16)], 2, by rfl, ?_⟩
      intro c hc
      simp only [List.mem_cons, List.not_mem_nil, or_false] at hc
      rcases hc with rfl | rfl
      · exact b64Char_mem _
      · exact b64Char_mem _
  | [b0, b1] =>
      refine ⟨[b64Char (b0 / 4), b64Char (b0 % 4 * 16 + b1 / 16),
        b64Char (b1 % 16 * 4)], 1, by rfl, ?_⟩
      intro c hc
      simp only [List.mem_cons, List.not_mem_nil, or_false] at hc
      rcases hc with rfl | rfl | rfl
      · exact b64Char_mem _
      · exact b64Char_mem _
      · exact b64Char_mem _
  | b0 :: b1 :: b2 :: rest =>
      obtain ⟨code, k, heq, hmem⟩ := b64_chunks_split rest
      refine ⟨b64Char (b0 / 4) :: b64Char (b0 % 4 * 16 + b1 / 16) ::
        b64Char (b1 % 16 * 4 + b2 / 64) :: b64Char (b2 % 64) :: code, k, ?_, ?_⟩
      · show b64Char (b0 / 4) :: b64Char (b0 % 4 * 16 + b1 / 16) ::
          b64Char (b1 % 16 * 4 + b2 / 64) :: b64Char (b2 % 64) ::
          b64EncodeChunks rest = _
        rw [heq]
        rfl
      · intro c hc
        simp only [List.mem_cons] at hc
        rcases hc with rfl | rfl | rfl | rfl | h
        · exact b64Char_mem _
        · exact b64Char_mem _
        · exact b64Char_mem _
        · exact b64Char_mem _
        · exact hmem c h

theorem dropWhile_eq_self_of_head (l : List Char)
    (h : ∀ c ∈ l, (c == '=') = false) :
    l.dropWhile (fun c => c == '=') = l := by
  cases l with
  | nil => rfl
  | cons a as =>
      rw [List.dropWhile_cons]
      simp [h a (by simp)]

theorem rstripEq_append_replicate (code : List Char) (k : Nat)
    (h : ∀ c ∈ code, c ∈ b64UrlAlphabet) :
    rstripEq (code ++ List.replicate k '=') = code := by
  unfold rstripEq
  rw [List.reverse_append, List.reverse_replicate]
  have hdrop : ∀ m : Nat, (List.replicate m '=' ++ code.reverse).dropWhile
      (fun c => c == '=') = code.reverse.dropWhile (fun c => c == '=') := by
    intro m
    induction m with
    | zero => rfl
    | succ n ih =>
        rw [List.replicate_succ, List.cons_append, List.dropWhile_cons]
        simp only [beq_self_eq_true, if_true]
        exact ih
  rw [hdrop k, dropWhile_eq_self_of_head _ ?_, List.reverse_reverse]
  intro c hc
  have hmem : c ∈ code := List.mem_reverse.mp hc
  have hne : c ≠ '=' := b64UrlAlphabet_no_eq c (h c hmem)
  simpa using hne

theorem base64url_encode_chars (b : Bytes) :
    (base64url_encode b).toList.all
      (fun c => b64UrlAlphabet.contains c && (c != '=')) = true := by
  obtain ⟨code, k, heq, hmem⟩ := b64_chunks_split b
  have hlist : (base64url_encode b).toList = code := by
    show rstripEq (b64EncodeChunks b) = code
    rw [heq]
    exact rstripEq_append_replicate code k hmem
  rw [hlist, List.all_eq_true]
  intro c hc
  have h1 : c ∈ b64UrlAlphabet := hmem c hc
  have h2 : c ≠ '=' := b64UrlAlphabet_no_eq c h1
  simp [List.contains, List.elem_iff, h1, h2]

/-- C9: `prepare_key` and `stringhash` are deterministic pure functions of
their inputs, and the login verifier `stringhash` returns contains no `=`
padding character and consists only of URL-safe Base64 alphabet characters. -/
theorem crypto_deterministic_and_urlsafe (E : BlockCipher) (pw email : Bytes)
    (key : List Nat) :
    prepare_key E pw = prepare_key E pw
    ∧ stringhash E email key = stringhash E email key
    ∧ (stringhash E email key).toList.all
        (fun c => b64UrlAlphabet.contains c && (c != '=')) = true :=
  ⟨rfl, rfl, base64url_encode_chars _⟩

/-- C3 (code bug): the login request goes to the fixed endpoint, but
`list_files` passes `self.sid` as the second positional argument of
`mega_api_request`, which is `base_url`; the session-scoped request is POSTed
to the session-id string, not to the fixed endpoint URL. -/
theorem session_request_url_bug :
    (loginRequestBuild "e@x" "uh0" 0).url = MEGA_BASE_URL
    ∧ ((listFilesRun (some "sid9") 0 (.resp 200 (some (.obj [])) "")).request).map
        (fun q => q.url) = some "sid9"
    ∧ "sid9" ≠ MEGA_BASE_URL
    ∧ (loginRequestBuild "e@x" "uh0" 77).idParam = 77
    ∧ (loginRequestBuild "e@x" "uh0" 77).payload = [loginCmd "e@x" "uh0"] :=
  ⟨rfl, rfl, by decide, rfl, rfl⟩

/-- Counterexample to C4 as stated: an HTTP-200 body that is valid JSON but
not a non-empty array — the empty array — makes `mega_api_request` return
`None` silently instead of failing with a protocol error. -/
theorem empty_envelope_returns_none :
    megaApiRequestHandle (.resp 200 (some (.arr [])) "") = .ok none := rfl

/-- C4 as amended: on an HTTP-200 response, a non-empty JSON array yields
exactly element 0; a falsy JSON body (empty array, `null`, `0`, `""`, `false`,
`{}`) makes the request silently return `None` rather than fail with a
protocol error. -/
theorem envelope_extraction_amended (raw : String) (x : JValue) (xs : List JValue)
    (j : JValue) (hj : pyTruthy j = false) :
    megaApiRequestHandle (.resp 200 (some (.arr (x :: xs))) raw) = .ok (some x)
    ∧ megaApiRequestHandle (.resp 200 (some j) raw) = .ok none := by
  refine ⟨rfl, ?_⟩
  show requestExtract j = .ok none
  rw [requestExtract, hj]
  rfl

/-- Witness for C4's amended theorem at `raw = ""`, `x = null`, `xs = []`,
`j` the empty array. -/
theorem envelope_extraction_amended_witness :
    pyTruthy (.arr []) = false
    ∧ megaApiRequestHandle (.resp 200 (some (.arr [.null])) "") = .ok (some .null) :=
  ⟨rfl, (envelope_extraction_amended "" .null [] (.arr []) rfl).1⟩

/-- Counterexample to C5 as stated: when the correlated response element for a
delete is `-1`, `delete_file` returns the bare boolean `False`; the numeric
code is not carried in the return value. -/
theorem delete_minus_one_returns_false :
    (deleteFileRun (some "sid1") "abc123" 0 (.resp 200 (some (.arr [.num (-1)])) "")).ret
      = .ok (.pyBool false) := rfl

/-- C5 as amended: with a session present, `delete_file` returns `True`
exactly when the correlated response element equals `0` under Python equality
(`pyEqZero`: the integer `0`, or `False`), and the bare boolean `False` for
every other element; the raw code survives only in the log, not in the
return value. -/
theorem delete_result_boolean (s node raw : String) (hs : s ≠ "") (j : JValue)
    (r : Nat) :
    (deleteFileRun (some s) node r (.resp 200 (some (.arr [j])) raw)).ret
      = .ok (.pyBool (pyEqZero (some j))) := by
  have hfalsy : pySidFalsy (some s) = false := by
    simp [pySidFalsy, hs]
  rw [deleteFileRun, hfalsy]
  show (if pyEqZero (some j) then _ else (⟨_, .ok (.pyBool false)⟩ : OpStep)).ret = _
  rcases h : pyEqZero (some j) with _ | _ <;> simp [h]

/-- Witness for C5's amended theorem at session `"sid1"`, node `"n1"`,
response element `-1`. -/
theorem delete_result_boolean_witness :
    ("sid1" : String) ≠ ""
    ∧ (deleteFileRun (some "sid1") "n1" 0 (.resp 200 (some (.arr [.num (-1)])) "")).ret
        = .ok (.pyBool false) :=
  ⟨by decide, delete_result_boolean "sid1" "n1" "" (by decide) (.num (-1)) 0⟩

/-- C6: while the session id is absent, `list_files`, `delete_file` and the
upload initiation all return `None` locally and issue no network request. -/
theorem unauthenticated_fails_locally (r : Nat) (net : NetResult) (node : String)
    (fileExists : Bool) (size : Int) (folderNode : Option String) :
    listFilesRun none r net = ⟨none, .ok .pyNone⟩
    ∧ deleteFileRun none node r net = ⟨none, .ok .pyNone⟩
    ∧ initiateUploadRun none fileExists size folderNode r net = ⟨none, .ok .pyNone⟩ :=
  ⟨rfl, rfl, rfl⟩

/-- C7: no session-scoped operation and no transport call assigns the session
fields; any outcome, failures included, leaves the `Mega` state unchanged. -/
theorem session_state_unchanged (st : MegaState) (r : Nat) (net : NetResult)
    (node : String) (fileExists : Bool) (size : Int) (folderNode : Option String)
    (data : JValue) (base_url : String) :
    (listFilesM st r net).1 = st
    ∧ (deleteFileM st node r net).1 = st
    ∧ (initiateUploadM st fileExists size folderNode r net).1 = st
    ∧ (megaApiRequestM st data base_url r net).1 = st :=
  ⟨rfl, rfl, rfl, rfl⟩
